import Mathlib

/-!
Verification development for the awsssolib repository.

The Python sources under src/awsssolib are shallowly embedded below:
JSON values and Python mappings become the inductive type JVal and
association lists, fallible Python code (statements that can raise)
becomes Except PyErr, the HTTP backend becomes scripted response values,
and the object store used by get_api_payload with copy.deepcopy becomes
an explicit address-indexed store.  Logging calls are not modelled (they
produce no observable value).
-/

namespace AwsSso

/-- Python exceptions that the embedded code can raise. -/
inductive PyErr where
  | nameError (n : String)
  | attributeError (n : String)
  | systemError (text : String)
  deriving DecidableEq, Repr

/-- JSON values as manipulated by the Python code: strings, objects
(mappings), arrays, and the Python None (JSON null). -/
inductive JVal where
  | str (s : String)
  | obj (fields : List (String × JVal))
  | arr (elems : List JVal)
  | pynone

/-- Python mapping access d.get(k, dflt) on a value statically known to be
a dict (entity _data after _parse_data): the value stored under k, or the
default when the key is absent. -/
def dictGet (fs : List (String × JVal)) (k : String) (dflt : JVal) : JVal :=
  (fs.lookup k).getD dflt

/-- Python attribute call v.get(k, dflt) on an arbitrary value: succeeds
with mapping semantics when v is a dict and raises AttributeError
otherwise (in particular when v is None, as in None.get(...)). -/
def pyGet (v : JVal) (k : String) (dflt : JVal) : Except PyErr JVal :=
  match v with
  | .obj fs => .ok ((fs.lookup k).getD dflt)
  | _ => .error (.attributeError "get")

/-- Python equality test v == s between an arbitrary value and a string
literal: true only when v is that very string (None == s and dict == s
are False in Python). -/
def jvalEqStr (v : JVal) (s : String) : Bool :=
  match v with
  | .str t => t == s
  | _ => false

/-- Whether a value is a Python dict, as tested by isinstance(data, dict)
in Entity._parse_data. -/
def JVal.isDict : JVal → Bool
  | .obj _ => true
  | _ => false

/-! ## Entity base (entities/entities.py lines 54-65, entities/core.py lines 67-81)

Entity.__init__ stores self._data = self._parse_data(data); _parse_data
logs and replaces data with the empty dict when it is not a dict. -/

namespace Entity

/-- Embedding of Entity._parse_data (entities.py lines 61-65): non-dict
input is replaced by the empty mapping, dict input is kept unchanged. -/
def parse_data (data : JVal) : JVal :=
  if data.isDict then data else .obj []

end Entity

/-- The _data field stored by Group.__init__ (via Entity.__init__). -/
def Group.init (data : JVal) : JVal := Entity.parse_data data

/-- The _data field stored by User.__init__ (via Entity.__init__). -/
def User.init (data : JVal) : JVal := Entity.parse_data data

/-- The _data field stored by Account.__init__ (via Entity.__init__). -/
def Account.init (data : JVal) : JVal := Entity.parse_data data

/-- The _data field stored by PermissionSet.__init__ (via Entity.__init__). -/
def PermissionSet.init (data : JVal) : JVal := Entity.parse_data data

/-! ## Field accessors of the entity views (entities/entities.py)

Each accessor below takes the backing mapping self._data (a dict by the
Entity invariant) and follows the exact chain of .get calls of the
source.  Chains whose first .get has no default can raise AttributeError
when the intermediate value is not a dict, and are embedded in Except. -/

namespace Group

/-- Group.name (entities.py line 93): self._data.get("GroupName", ""). -/
def name (d : List (String × JVal)) : JVal := dictGet d "GroupName" (.str "")

/-- Group.description (entities.py line 103): self._data.get("Description", ""). -/
def description (d : List (String × JVal)) : JVal := dictGet d "Description" (.str "")

/-- Group.id (entities.py line 83): self._data.get("GroupId"), None when absent. -/
def id (d : List (String × JVal)) : JVal := dictGet d "GroupId" .pynone

end Group

namespace User

/-- User.emails (entities.py line 274):
self._data.get("UserAttributes").get("emails", {}).get("ComplexListValue", "").
The first .get has no default, so a missing UserAttributes key yields
None and the second .get raises AttributeError. -/
def emails (d : List (String × JVal)) : Except PyErr JVal := do
  let ua := dictGet d "UserAttributes" .pynone
  let em ← pyGet ua "emails" (.obj [])
  pyGet em "ComplexListValue" (.str "")

/-- User._name (entities.py line 278):
self._data.get("UserAttributes").get("name", {}).get("ComplexValue", {}),
again with no default on the first .get. -/
def nameAttr (d : List (String × JVal)) : Except PyErr JVal := do
  let ua := dictGet d "UserAttributes" .pynone
  let nm ← pyGet ua "name" (.obj [])
  pyGet nm "ComplexValue" (.obj [])

/-- User.first_name (entities.py line 288):
self._name.get("givenName", {}).get("StringValue", ""). -/
def first_name (d : List (String × JVal)) : Except PyErr JVal := do
  let nm ← nameAttr d
  let gn ← pyGet nm "givenName" (.obj [])
  pyGet gn "StringValue" (.str "")

/-- User.last_name (entities.py line 298):
self._name.get("familyName", {}).get("StringValue", ""). -/
def last_name (d : List (String × JVal)) : Except PyErr JVal := do
  let nm ← nameAttr d
  let fn ← pyGet nm "familyName" (.obj [])
  pyGet fn "StringValue" (.str "")

/-- User.display_name (entities.py line 328):
self._data.get("UserAttributes", {}).get("displayName", {}).get("StringValue"),
every step defaulted, final .get without default returns None. -/
def display_name (d : List (String × JVal)) : Except PyErr JVal := do
  let ua := dictGet d "UserAttributes" (.obj [])
  let dn ← pyGet ua "displayName" (.obj [])
  pyGet dn "StringValue" .pynone

/-- User.id (entities.py line 308): self._data.get("UserId"). -/
def id (d : List (String × JVal)) : JVal := dictGet d "UserId" .pynone

/-- User.name (entities.py line 318): self._data.get("UserName"). -/
def name (d : List (String × JVal)) : JVal := dictGet d "UserName" .pynone

end User

namespace Account

/-- Account.name (entities.py line 144): self._data.get("Name"). -/
def name (d : List (String × JVal)) : JVal := dictGet d "Name" .pynone

/-- Account.id (entities.py line 164): self._data.get("Id"). -/
def id (d : List (String × JVal)) : JVal := dictGet d "Id" .pynone

end Account

/-! ## The Sso class payload builder as staged (awsssolib.py lines 92-124)

The class Sso carries its own copy of get_api_payload, and that copy is
what every call site in awsssolib.py and entities.py invokes (none of
them imports utils.py).  It is broken: its defaults at lines 98-101 name
Sso.API_CONTENT_TYPE and Sso.DEFAULT_AWS_REGION inside the class body,
where the name Sso is unbound so class creation already raises
NameError; and, conditioned on the class existing, line 118 calls
copy.deepcopy while the module never imports copy, so every call with a
supported target raises NameError for the unbound name copy before
returning.  Either way no call of Sso.get_api_payload can return a
payload. -/

/-- Embedding of one call of the staged Sso.get_api_payload
(awsssolib.py lines 92-118) with a supported target: the call raises
NameError for the unbound name copy at line 118 (copy.deepcopy with
copy unimported) and never produces a payload. -/
def sso_get_api_payload : Except PyErr Unit :=
  Except.error (PyErr.nameError "copy")

/-! ## Paginated fetcher (awsssolib.py lines 516-544)

Sso._get_paginated_results is a generator.  Its first statement (line
524) builds the payload with the broken Sso.get_api_payload, which
raises NameError before any POST; the rest of the body posts the
payload, and _get_partial_response raises SystemError(response.text) on
a non-OK response and otherwise extracts
response.json().get("NextToken"); the items under object_group (default
[]) are yielded one by one, then while the token is truthy the next
page is requested and yielded likewise.

A scripted backend is a list of pages consumed in request order.  Each
page carries the HTTP ok flag, the response text, the item list found
under the object_group key (response.json().get(object_group, []), so an
absent key is the empty list), and the optional NextToken.  The run of
the generator is recorded as a trace of events, plus the Except outcome
(error as soon as a statement raises). -/

/-- One scripted page response for Sso._get_paginated_results. -/
structure SsoPage where
  ok : Bool
  text : String
  items : List JVal
  nextToken : Option String

/-- Observable events of a generator run: a POST for page i, a wrapped
item handed to the consumer, in execution order. -/
inductive Event where
  | request (i : Nat)
  | yielded (d : JVal)

/-- Whether an event is the request of page i. -/
def Event.isRequest (i : Nat) : Event → Bool
  | .request j => j == i
  | _ => false

/-- The request-and-yield loop of Sso._get_paginated_results together
with Sso._get_partial_response (awsssolib.py lines 529-544), run
against a scripted page list, conditioned on the payload at line 524
having been built.  Page i is requested, then (ok case) its items are
yielded in order; the next page is requested only when NextToken is
present.  A non-OK page makes _get_partial_response raise
SystemError(response.text) before anything of that page is yielded.
When the script is exhausted the run stops (under the well-formed-script
hypotheses of the theorems the last consumed page carries no token, so
this case is never reached with a pending token). -/
def pagesLoop : List SsoPage → Nat → List Event × Except PyErr Unit
  | [], _ => ([], .ok ())
  | p :: rest, i =>
    if p.ok = false then ([Event.request i], .error (.systemError p.text))
    else
      match p.nextToken with
      | none => (Event.request i :: p.items.map Event.yielded, .ok ())
      | some _ =>
        let t := pagesLoop rest (i + 1)
        (Event.request i :: p.items.map Event.yielded ++ t.1, t.2)

/-- Embedding of a full run of the Sso._get_paginated_results generator
(awsssolib.py lines 516-544): the first statement of the body (line
524) builds the payload with the staged Sso.get_api_payload, which
raises NameError before any POST, so the loop is never entered; the ok
branch records what the body would do from line 529 on. -/
def getPaginatedResults (ps : List SsoPage) : List Event × Except PyErr Unit :=
  match sso_get_api_payload with
  | .error e => ([], .error e)
  | .ok _ => pagesLoop ps 0

/-- The items yielded along a trace, in order. -/
def yieldedOf (tr : List Event) : List JVal :=
  tr.filterMap fun e => match e with
    | .yielded d => some d
    | _ => none

/-- The page indices requested along a trace, in order. -/
def requestsOf (tr : List Event) : List Nat :=
  tr.filterMap fun e => match e with
    | .request i => some i
    | _ => none

/-- A script in which every page except the last carries a NextToken and
the last page carries none (the shape quantified over by the pagination
claim). -/
def cursorChain : List SsoPage → Prop
  | [] => True
  | [p] => p.nextToken = none
  | p :: q :: rest => (∃ s, p.nextToken = some s) ∧ cursorChain (q :: rest)

/-- A concrete well-formed two-page script (used by the pagination
witness). -/
def pagScript : List SsoPage :=
  [⟨true, "", [JVal.str "x", JVal.str "y"], some "tok"⟩,
   ⟨true, "", [JVal.str "z"], none⟩]

/-! ## Eager accounts pagination (awsssolib.py lines 149-161 and 466-481)

The accounts property calls Sso._list_accounts_pagination, which posts
listAccounts and returns (Account views of response.json().get("Accounts"),
response.json().get("NextToken", "")); the property loops while the
token string is truthy (non-empty) and concatenates the pages. -/

/-- One scripted listAccounts page: the Accounts items (each the backing
mapping of one Account view) and the NextToken string, "" when the
response has none (the .get default). -/
structure AccountsPage where
  accounts : List (List (String × JVal))
  nextToken : String

/-- Embedding of the Sso.accounts pagination loop (awsssolib.py lines
157-161) over a scripted page list consumed in request order: page items
are concatenated, and the loop continues only while the token is a
non-empty string. -/
def accountsCollect : List AccountsPage → List (List (String × JVal))
  | [] => []
  | p :: rest =>
    p.accounts ++ (if p.nextToken == "" then [] else accountsCollect rest)

/-- Embedding of Sso.get_account_by_name (awsssolib.py line 270):
next((account for account in self.accounts if account.name == account_name), None).
Account.name is data.get("Name"), and Python compares a possibly-None
name against the queried string. -/
def get_account_by_name (ps : List AccountsPage) (n : String) :
    Option (List (String × JVal)) :=
  (accountsCollect ps).find? fun d => jvalEqStr (Account.name d) n

/-- Embedding of Sso.get_account_by_id (awsssolib.py line 279). -/
def get_account_by_id (ps : List AccountsPage) (i : String) :
    Option (List (String × JVal)) :=
  (accountsCollect ps).find? fun d => jvalEqStr (Account.id d) i

/-! ## PermissionSet.provisioned_accounts (entities/entities.py lines 441-477)

The accessor loops over PermissionSet._list_provisioned_accounts_pagination.
That helper posts ListAccountsWithProvisionedPermissionSet and, on a
non-OK response, logs the error and returns ([], None); on an OK
response it returns (response.json().get("accountIds", []),
response.json().get("marker", "")).  The loop continues while the
returned marker is truthy (a non-empty string; Python None is falsy). -/

/-- One scripted ListAccountsWithProvisionedPermissionSet response: the
ok flag, the response text, the accountIds items (absent key is []), and
the marker field as present in the JSON (none when absent). -/
structure ProvResp where
  ok : Bool
  text : String
  accountIds : List String
  marker : Option String

/-- Embedding of PermissionSet._list_provisioned_accounts_pagination
(entities.py lines 457-477): a non-OK response is logged and returns
([], None); an OK response returns the ids and the marker string
defaulted to "".  The returned second component is Python None (left)
or a string, folded into Option String here. -/
def list_provisioned_accounts_pagination (r : ProvResp) :
    List String × Option String :=
  if r.ok = false then ([], none)
  else (r.accountIds, some (r.marker.getD ""))

/-- Python truthiness of the marker variable: None and "" are falsy. -/
def markerTruthy : Option String → Bool
  | none => false
  | some s => s != ""

/-- Embedding of the accumulation loop of PermissionSet.provisioned_accounts
(entities.py lines 448-452) over a scripted response list consumed in
request order: account ids of successive pages are concatenated while
the marker is truthy.  The function is total with a plain list result;
the source path contains no raise statement. -/
def provisionedAccountIds : List ProvResp → List String
  | [] => []
  | r :: rest =>
    let s := list_provisioned_accounts_pagination r
    if markerTruthy s.2 then s.1 ++ provisionedAccountIds rest else s.1

/-! ## Sso.sso_directory_id (awsssolib.py lines 129-147)

After posting GetUserPoolInfo the source runs the statement
`if not responce.ok:` where the name responce is undefined (the response
variable is spelled response), so evaluation raises NameError before the
ok flag of the actual response is ever consulted. -/

/-- One scripted GetUserPoolInfo HTTP response. -/
structure HttpResp where
  ok : Bool
  text : String
  directoryId : Option String

/-- Embedding of the response handling of Sso.sso_directory_id
(awsssolib.py lines 142-147).  The source reads the undefined name
responce in the guard, so the accessor raises NameError for every
response, OK or not; the intended log-and-return-None branch and the
DirectoryId extraction are unreachable. -/
def sso_directory_id (_r : HttpResp) : Except PyErr (Option String) :=
  Except.error (PyErr.nameError "responce")

/-! ## Account.instance_id memoization (entities/entities.py lines 131-205)

Account.__init__ sets self._instance_id = None.  The accessor posts
GetApplicationInstanceForAWSAccount only when the memo field is None and
stores response.json().get("applicationInstance", {}).get("instanceId", "").
The memo field therefore holds a Python value, with None doubling as the
not-yet-fetched sentinel. -/

/-- Extraction of the instance id from the GetApplicationInstanceForAWSAccount
response JSON (entities.py line 204): .get("applicationInstance", {})
defaults an absent key to a dict, but a present non-dict value (JSON
null) makes the second .get raise AttributeError. -/
def extractInstanceId (json : List (String × JVal)) : Except PyErr JVal := do
  let ai := dictGet json "applicationInstance" (.obj [])
  pyGet ai "instanceId" (.str "")

/-- One access to Account.instance_id (entities.py lines 186-205) on an
account whose memo field currently holds memo, against a scripted
response json: returns how many GetApplicationInstanceForAWSAccount
posts the access issued, the outcome, and the new memo field.  A non-None
memo is returned with no network call; a None memo triggers the call and
the assignment self._instance_id = extracted value. -/
def instanceIdAccess (resp : List (String × JVal)) (memo : JVal) :
    Nat × Except PyErr JVal × JVal :=
  match memo with
  | .pynone =>
    match extractInstanceId resp with
    | .ok v => (1, .ok v, v)
    | .error e => (1, .error e, .pynone)
  | m => (0, .ok m, m)

/-- n successive accesses to instance_id on the same Account object with
a fixed scripted response: the list of (calls issued, outcome) per
access and the final memo field. -/
def instanceIdAccesses (resp : List (String × JVal)) :
    Nat → JVal → List (Nat × Except PyErr JVal) × JVal
  | 0, memo => ([], memo)
  | n + 1, memo =>
    let s := instanceIdAccess resp memo
    let t := instanceIdAccesses resp n s.2.2
    ((s.1, s.2.1) :: t.1, t.2)

/-! ## Payload builder with the Python object store (utils.py lines 42-72)

get_api_payload validates the target against SUPPORTED_TARGETS (raising
UnsupportedTarget on a miss, before anything else), serializes
content_string with json.dumps, builds the payload dict whose params
entry aliases the caller-supplied params dict (params or a freshly
created empty dict), and returns copy.deepcopy(payload).

To make aliasing observable, mutable Python dicts live in an explicit
store: an address-indexed association list, with a bump allocator.
Values are either immutable primitives (the strings of the envelope) or
references to store objects.  copy.deepcopy is embedded as a deep read
of the value into a pure tree followed by a fresh allocation of that
tree, which is its behaviour on the acyclic values at hand. -/

/-- A store address. -/
abbrev Addr := Nat

/-- A Python value: an immutable primitive (string) or a reference to a
dict living in the store. -/
inductive PVal where
  | prim (s : String)
  | ref (a : Addr)
  deriving DecidableEq, Repr

/-- A store object: a Python dict.  Field update shadows by prepending,
and lookup takes the first binding. -/
structure Obj where
  fields : List (String × PVal)
  deriving DecidableEq, Repr

/-- The Python object store: the next fresh address and the allocated
objects. -/
structure Store where
  next : Addr
  mem : List (Addr × Obj)
  deriving DecidableEq, Repr

/-- Dereference an address. -/
def Store.find (st : Store) (a : Addr) : Option Obj := st.mem.lookup a

/-- Allocate a new dict at a fresh address. -/
def allocObj (st : Store) (o : Obj) : Store × Addr :=
  (⟨st.next + 1, (st.next, o) :: st.mem⟩, st.next)

/-- Mutate one field of the object at address a (Python d[k] = v),
leaving every other object unchanged. -/
def setField (st : Store) (a : Addr) (k : String) (v : PVal) : Store :=
  ⟨st.next,
   st.mem.map fun e => if e.1 = a then (e.1, ⟨(k, v) :: e.2.fields⟩) else e⟩

/-- An immutable tree snapshot of a Python value, the result of reading
it out of the store. -/
inductive PureVal where
  | prim (s : String)
  | dict (fields : List (String × PureVal))

/-- Read a value out of the store into a pure tree, with fuel bounding
the dereference depth (sufficient fuel exists for any acyclic value; the
fallback leaves are never reached in the uses below). -/
def deepRead (st : Store) : Nat → PVal → PureVal
  | _, .prim s => .prim s
  | 0, .ref _ => .prim ""
  | fuel + 1, .ref a =>
    match st.find a with
    | none => .prim ""
    | some o => .dict (o.fields.map fun kv => (kv.1, deepRead st fuel kv.2))

/-- Read each field of a dict out of the store (the map performed inside
the dict case of deepRead). -/
def deepReadFields (st : Store) (fuel : Nat)
    (l : List (String × PVal)) : List (String × PureVal) :=
  l.map fun kv => (kv.1, deepRead st fuel kv.2)

mutual

/-- Serialize a pure tree the way json.dumps serializes the
corresponding Python value. -/
def pureSerialize (p : PureVal) : String :=
  match p with
  | .prim s => "\"" ++ s ++ "\""
  | .dict fs => "\x7b" ++ String.intercalate ", " (pureSerializeFields fs) ++ "\x7d"

/-- Serialize the fields of a dict. -/
def pureSerializeFields (l : List (String × PureVal)) : List String :=
  match l with
  | [] => []
  | (k, v) :: rest => ("\"" ++ k ++ "\": " ++ pureSerialize v) :: pureSerializeFields rest

end

mutual

/-- Allocate a pure tree in the store as fresh objects, returning the
value referring to them: the embedding of building a brand-new deep copy. -/
def allocPure (st : Store) (p : PureVal) : Store × PVal :=
  match p with
  | .prim s => (st, .prim s)
  | .dict fs =>
    let r := allocPureFields st fs
    (⟨r.1.next + 1, (r.1.next, ⟨r.2⟩) :: r.1.mem⟩, .ref r.1.next)

/-- Allocate the fields of a pure dict left to right. -/
def allocPureFields (st : Store) (l : List (String × PureVal)) :
    Store × List (String × PVal) :=
  match l with
  | [] => (st, [])
  | (k, v) :: rest =>
    let r := allocPure st v
    let r2 := allocPureFields r.1 rest
    (r2.1, (k, r.2) :: r2.2)

end

/-- The fixed allow-list of operation names (configuration.py lines 34-50). -/
def SUPPORTED_TARGETS : List String :=
  ["GetUserPoolInfo",
   "SearchGroups",
   "ProvisionApplicationInstanceForAWSAccount",
   "ListPermissionSets",
   "GetApplicationInstanceForAWSAccount",
   "ProvisionApplicationProfileForAWSAccountInstance",
   "AssociateProfile",
   "ListAWSAccountProfiles",
   "DisassociateProfile",
   "SearchUsers",
   "ListMembersInGroup",
   "ListGroupsForUser",
   "CreatePermissionSet",
   "PutPermissionsPolicy",
   "GetPermissionsPolicy",
   "ListAccountsWithProvisionedPermissionSet",
   "UpdatePermissionSet"]

/-- The UnsupportedTarget exception raised by _validate_target. -/
structure UnsupportedTarget where
  target : String
  deriving DecidableEq, Repr

/-- Embedding of _validate_target (utils.py lines 69-72). -/
def validate_target (target : String) : Except UnsupportedTarget String :=
  if target ∈ SUPPORTED_TARGETS then .ok target else .error ⟨target⟩

/-- The headers dict built by get_api_payload (utils.py lines 58-60). -/
def headersObj (content_type content_encoding x_amz_target : String) : Obj :=
  ⟨[("Content-Type", .prim content_type),
    ("Content-Encoding", .prim content_encoding),
    ("X-Amz-Target", .prim x_amz_target)]⟩

/-- The params entry of the payload (utils.py line 63): params or \x7b\x7d
aliases the caller-supplied dict when given and allocates a fresh empty
dict otherwise. -/
def paramsAlloc (st : Store) (params : Option Addr) : Store × Addr :=
  match params with
  | some a => (st, a)
  | none => allocObj st ⟨[]⟩

/-- The payload dict literal of get_api_payload (utils.py lines 57-65). -/
def payloadObj (contentString : String) (headersAddr : Addr)
    (method target : String) (paramsAddr : Addr)
    (path region : String) : Obj :=
  ⟨[("contentString", .prim contentString),
    ("headers", .ref headersAddr),
    ("method", .prim method),
    ("operation", .prim target),
    ("params", .ref paramsAddr),
    ("path", .prim path),
    ("region", .prim region)]⟩

/-- The store state and payload address after building the payload dict
of get_api_payload (utils.py lines 57-65): the contentString entry holds
the json.dumps serialization of the content dict (computed now, with
fuel st.next, which suffices for any acyclic value already in the
store), the headers entry refers to the freshly built headers dict, the
params entry aliases the caller params dict when given, and method,
operation, path and region are plain strings. -/
def payloadStage (st : Store) (contentAddr : Addr) (target : String)
    (method : String) (params : Option Addr) (path : String)
    (content_type : String) (content_encoding : String)
    (x_amz_target : String) (region : String) : Store × Addr :=
  let contentString := pureSerialize (deepRead st st.next (.ref contentAddr))
  let r1 := allocObj st (headersObj content_type content_encoding x_amz_target)
  let r2 := paramsAlloc r1.1 params
  allocObj r2.1 (payloadObj contentString r1.2 method target r2.2 path region)

/-- The payload-building and deepcopy part of get_api_payload (utils.py
lines 57-66), run after validation: build the payload dict, then return
copy.deepcopy(payload), embedded as a deep read of the payload into a
pure tree followed by a fresh allocation of that tree. -/
def buildAndDeepcopy (st : Store) (contentAddr : Addr) (target : String)
    (method : String) (params : Option Addr) (path : String)
    (content_type : String) (content_encoding : String)
    (x_amz_target : String) (region : String) : Store × PVal :=
  let r3 := payloadStage st contentAddr target method params path
    content_type content_encoding x_amz_target region
  allocPure r3.1 (deepRead r3.1 r3.1.next (.ref r3.2))

/-- Embedding of get_api_payload (utils.py lines 42-66) over the object
store: the target is validated against the allow-list first (raising
UnsupportedTarget before anything else happens), then the payload is
built and its deep copy returned. -/
def get_api_payload (st : Store) (contentAddr : Addr) (target : String)
    (method : String) (params : Option Addr) (path : String)
    (content_type : String) (content_encoding : String)
    (x_amz_target : String) (region : String) :
    Except UnsupportedTarget (Store × PVal) :=
  match validate_target target with
  | .error e => .error e
  | .ok target =>
    .ok (buildAndDeepcopy st contentAddr target method params path
          content_type content_encoding x_amz_target region)

/-- Read one field of an envelope value (test-harness observation). -/
def getField (st : Store) (v : PVal) (k : String) : Option PVal :=
  match v with
  | .ref a => match st.find a with
    | some o => o.fields.lookup k
    | none => none
  | .prim _ => none

/-- Every allocated object of the store sits strictly below the bump
pointer: the invariant of every store reachable by allocation from the
empty store. -/
def StoreBounded (st : Store) : Prop := ∀ e ∈ st.mem, e.1 < st.next

/-- A value that is either a primitive or a reference to an address at
or above N (an address allocated after the point where the bump pointer
was N). -/
def ValFresh (N : Nat) : PVal → Prop
  | .prim _ => True
  | .ref a => N ≤ a

/-- All values of a field list are N-fresh. -/
def FieldsFresh (N : Nat) (l : List (String × PVal)) : Prop :=
  ∀ kv ∈ l, ValFresh N kv.2

/-- Every object of the store at an address at or above N has only
N-fresh fields: from such an object no reference leads below N. -/
def StoreFreshFrom (N : Nat) (st : Store) : Prop :=
  ∀ a o, st.find a = some o → N ≤ a → FieldsFresh N o.fields

/-- Two stores with the same contents at every address at or above N. -/
def AgreeFrom (N : Nat) (st st' : Store) : Prop :=
  ∀ a, N ≤ a → st.find a = st'.find a

/-- Concrete caller store of the witnesses: a content dict at address 0
and a params dict at address 1. -/
def wStore : Store :=
  ⟨2, [(0, ⟨[("k0", .prim "v0")]⟩), (1, ⟨[("p", .prim "q")]⟩)]⟩

/-- The envelope built by the aliasing witness over wStore. -/
def wResult : Store × PVal :=
  buildAndDeepcopy wStore 0 "AssociateProfile" "POST" (some 1) "/control/"
    "application/json; charset=UTF-8" "amz-1.0"
    "com.amazon.switchboard.service.SWBService.AssociateProfile" "eu-west-1"

/-! ## The association workflow (awsssolib.py lines 292-344)

Sso.associate_group_to_account resolves the group id, the account
instance id and the provisioned profile id, reads sso_directory_id, and
only then posts AssociateProfile, returning response.ok.  The scripted
backend below carries one response per operation; the listing endpoints
are scripted as single cursor-less pages, so each listing costs one
POST.  Each step returns the list of operation names POSTed by the step
in order, together with its outcome (lookup misses surface as the
AttributeError Python raises when .id or .instance_id is read on None). -/

/-- Extraction of the profile id from the
ProvisionApplicationProfileForAWSAccountInstance response JSON
(awsssolib.py line 306):
response.json().get("applicationProfile", {}).get("profileId", ""). -/
def extractProfileId (json : List (String × JVal)) : Except PyErr JVal := do
  let ap := dictGet json "applicationProfile" (.obj [])
  pyGet ap "profileId" (.str "")

namespace PermissionSet

/-- PermissionSet.name (entities.py line 387): self._data.get("Name"). -/
def name (d : List (String × JVal)) : JVal := dictGet d "Name" .pynone

/-- PermissionSet.id (entities.py line 377): self._data.get("Id"). -/
def id (d : List (String × JVal)) : JVal := dictGet d "Id" .pynone

end PermissionSet

/-- Scripted backend for one run of the association workflow: the single
SearchGroups page, the single listAccounts page, the ListPermissionSets
result, the response JSONs of GetApplicationInstanceForAWSAccount and
ProvisionApplicationProfileForAWSAccountInstance, the GetUserPoolInfo
response, and the ok flag of the final AssociateProfile response. -/
structure Backend where
  groupsPage : List (List (String × JVal))
  accountsPage : List (List (String × JVal))
  permissionSetsPage : List (List (String × JVal))
  appInstanceJson : List (String × JVal)
  provisionJson : List (String × JVal)
  userPoolResp : HttpResp
  associateOk : Bool

/-- Step group_id = self.get_group_by_name(group_name).id (awsssolib.py
line 324): the groups generator first builds its SearchGroups payload
with the staged Sso.get_api_payload (line 524), which raises NameError
before the POST; conditioned on a payload, one SearchGroups POST
follows, and a lookup miss returns None whose .id read raises
AttributeError. -/
def groupIdStep (b : Backend) (gname : String) :
    List String × Except PyErr JVal :=
  match sso_get_api_payload with
  | .error e => ([], .error e)
  | .ok _ =>
    (["SearchGroups"],
     match b.groupsPage.find? (fun d => jvalEqStr (Group.name d) gname) with
     | none => .error (.attributeError "id")
     | some d => .ok (Group.id d))

/-- Step self.get_account_by_name(account_name).instance_id (awsssolib.py
lines 325 and 295): _list_accounts_pagination builds its payload inline
(lines 468-477, no Sso.get_api_payload), so the listAccounts POST is
issued; a lookup miss then raises AttributeError.  On a hit, the fresh
Account view resolves instance_id (entities.py lines 194-204), whose
payload is built by the staged Sso.get_api_payload and raises NameError
before the GetApplicationInstanceForAWSAccount POST; the ok branch
records the POST and the extraction the source would then perform. -/
def accountInstanceIdStep (b : Backend) (aname : String) :
    List String × Except PyErr JVal :=
  match b.accountsPage.find? (fun d => jvalEqStr (Account.name d) aname) with
  | none => (["listAccounts"], .error (.attributeError "instance_id"))
  | some _ =>
    match sso_get_api_payload with
    | .error e => (["listAccounts"], .error e)
    | .ok _ =>
      (["listAccounts", "GetApplicationInstanceForAWSAccount"],
       extractInstanceId b.appInstanceJson)

/-- Embedding of Sso._provision_application_profile_for_aws_account_instance
(awsssolib.py lines 292-306): the permission_sets property (line 216)
builds its ListPermissionSets payload with the staged Sso.get_api_payload
and raises NameError before its POST; conditioned on payloads, the POST,
the lookup, the account instance id resolution and the
ProvisionApplicationProfileForAWSAccountInstance POST (line 296, again
through the staged builder) follow in source order. -/
def provisionApplicationProfileStep (b : Backend) (pname aname : String) :
    List String × Except PyErr JVal :=
  match sso_get_api_payload with
  | .error e => ([], .error e)
  | .ok _ =>
    match b.permissionSetsPage.find? (fun d => jvalEqStr (PermissionSet.name d) pname) with
    | none => (["ListPermissionSets"], .error (.attributeError "id"))
    | some _ =>
      match accountInstanceIdStep b aname with
      | (t, .error e) => ("ListPermissionSets" :: t, .error e)
      | (t, .ok _) =>
        match sso_get_api_payload with
        | .error e => ("ListPermissionSets" :: t, .error e)
        | .ok _ =>
          ("ListPermissionSets" :: t
            ++ ["ProvisionApplicationProfileForAWSAccountInstance"],
           extractProfileId b.provisionJson)

/-- Step directory_id = self.sso_directory_id (awsssolib.py line 327):
the GetUserPoolInfo payload at line 137 is built by the staged
Sso.get_api_payload and raises NameError before the POST; conditioned
on a payload, one GetUserPoolInfo POST follows and then the responce
NameError of sso_directory_id. -/
def directoryIdStep (b : Backend) : List String × Except PyErr (Option String) :=
  match sso_get_api_payload with
  | .error e => ([], .error e)
  | .ok _ => (["GetUserPoolInfo"], sso_directory_id b.userPoolResp)

/-- Embedding of Sso.associate_group_to_account (awsssolib.py lines
312-344): the four resolution steps in source order, then (line 335,
through the staged builder) the AssociateProfile POST returning
response.ok.  The result is the ordered list of operations POSTed and
the outcome; an exception in a step propagates and aborts the remaining
steps. -/
def associate_group_to_account (b : Backend) (gname aname pname : String) :
    List String × Except PyErr Bool :=
  match groupIdStep b gname with
  | (t1, .error e) => (t1, .error e)
  | (t1, .ok _) =>
    match accountInstanceIdStep b aname with
    | (t2, .error e) => (t1 ++ t2, .error e)
    | (t2, .ok _) =>
      match provisionApplicationProfileStep b pname aname with
      | (t3, .error e) => (t1 ++ t2 ++ t3, .error e)
      | (t3, .ok _) =>
        match directoryIdStep b with
        | (t4, .error e) => (t1 ++ t2 ++ t3 ++ t4, .error e)
        | (t4, .ok _) =>
          match sso_get_api_payload with
          | .error e => (t1 ++ t2 ++ t3 ++ t4, .error e)
          | .ok _ =>
            (t1 ++ t2 ++ t3 ++ t4 ++ ["AssociateProfile"], .ok b.associateOk)

/-! ## The remaining by-name lookup helpers (awsssolib.py lines 227-290)

get_group_by_name, get_user_by_name and get_permission_set_by_name scan
self.groups, self.users and self.permission_sets.  The first two are
generators whose first statement builds a payload with the staged
Sso.get_api_payload (line 524); permission_sets (line 216) builds its
payload the same way.  All three therefore raise NameError before any
POST or scan; the ok branches record the scan the source would then
perform over a scripted single page. -/

/-- Embedding of Sso.get_group_by_name (awsssolib.py line 252) over a
scripted single-page group listing. -/
def get_group_by_name (gs : List (List (String × JVal))) (n : String) :
    Except PyErr (Option (List (String × JVal))) :=
  match sso_get_api_payload with
  | .error e => .error e
  | .ok _ => .ok (gs.find? fun d => jvalEqStr (Group.name d) n)

/-- Embedding of Sso.get_user_by_name (awsssolib.py line 234) over a
scripted single-page user listing. -/
def get_user_by_name (us : List (List (String × JVal))) (n : String) :
    Except PyErr (Option (List (String × JVal))) :=
  match sso_get_api_payload with
  | .error e => .error e
  | .ok _ => .ok (us.find? fun d => jvalEqStr (User.name d) n)

/-- Embedding of Sso.get_permission_set_by_name (awsssolib.py line 288)
over a scripted permission-set listing. -/
def get_permission_set_by_name (pss : List (List (String × JVal))) (n : String) :
    Except PyErr (Option (List (String × JVal))) :=
  match sso_get_api_payload with
  | .error e => .error e
  | .ok _ => .ok (pss.find? fun d => jvalEqStr (PermissionSet.name d) n)

end AwsSso

namespace AwsSso

/-! # Theorems -/

/-- Reduction of the Except monad bind on a success value. -/
@[simp] theorem except_ok_bind {ε α β : Type} (a : α) (f : α → Except ε β) :
    (Except.ok (ε := ε) a >>= f) = f a := rfl

/-- Reduction of the Except monad bind on a raised exception. -/
@[simp] theorem except_error_bind {ε α β : Type} (e : ε) (f : α → Except ε β) :
    (Except.error (α := α) e >>= f) = Except.error e := rfl

/-- C10: for every entity construction (Group, User, Account,
PermissionSet) with a data argument that is not a mapping, the Entity
base replaces it with the empty mapping (the source also logs it, which
is not modelled), and a mapping argument is kept unchanged; hence the
backing _data of every constructed entity is a mapping. -/
theorem entity_init_data_is_mapping (d : JVal) :
    ((Group.init d).isDict = true ∧ (User.init d).isDict = true ∧
     (Account.init d).isDict = true ∧ (PermissionSet.init d).isDict = true) ∧
    (d.isDict = false →
      Group.init d = JVal.obj [] ∧ User.init d = JVal.obj [] ∧
      Account.init d = JVal.obj [] ∧ PermissionSet.init d = JVal.obj []) ∧
    (d.isDict = true → Group.init d = d) := by
  cases d <;>
    simp [Group.init, User.init, Account.init, PermissionSet.init,
      Entity.parse_data, JVal.isDict]

/-- Witness for C10 at the concrete non-mapping input None. -/
theorem entity_init_data_is_mapping_witness :
    (Group.init JVal.pynone).isDict = true ∧ Group.init JVal.pynone = JVal.obj [] :=
  ⟨(entity_init_data_is_mapping JVal.pynone).1.1,
   ((entity_init_data_is_mapping JVal.pynone).2.1 rfl).1⟩

/-- C5 counterexample: on the backing mapping with no UserAttributes key
(the empty mapping), User.emails raises AttributeError instead of
returning its empty-string default, because the first .get in the chain
has no default and returns None. -/
theorem user_emails_missing_userattributes_raises :
    User.emails [] = Except.error (PyErr.attributeError "get") := rfl

/-- C5 amended: accessors whose whole .get chain carries defaults
(Group.name, Group.description, User.display_name) return their
empty-string/None default when the keys are absent, but User.emails,
User.first_name and User.last_name raise AttributeError when the
intermediate UserAttributes key is absent, since their first .get has no
default. -/
theorem entity_accessors_default_or_raise (d : List (String × JVal))
    (hg : d.lookup "GroupName" = none)
    (hd : d.lookup "Description" = none)
    (hu : d.lookup "UserAttributes" = none) :
    Group.name d = JVal.str "" ∧
    Group.description d = JVal.str "" ∧
    User.display_name d = Except.ok JVal.pynone ∧
    User.emails d = Except.error (PyErr.attributeError "get") ∧
    User.first_name d = Except.error (PyErr.attributeError "get") ∧
    User.last_name d = Except.error (PyErr.attributeError "get") := by
  simp [Group.name, Group.description, User.display_name, User.emails,
    User.first_name, User.last_name, User.nameAttr, dictGet, pyGet,
    hg, hd, hu]

/-- Witness for C5 amended at the empty backing mapping. -/
theorem entity_accessors_default_or_raise_witness :
    Group.name [] = JVal.str "" ∧
    User.emails [] = Except.error (PyErr.attributeError "get") := by
  have h := entity_accessors_default_or_raise [] rfl rfl rfl
  exact ⟨h.1, h.2.2.2.1⟩

/-- C3 counterexample: a non-OK first response inside the paginated
fetch of PermissionSet.provisioned_accounts makes the accessor return
the empty collection (after logging), not raise: the helper
_list_provisioned_accounts_pagination returns ([], None) on failure and
the accessor has no raise path. -/
theorem provisioned_accounts_nonok_counterexample :
    provisionedAccountIds [⟨false, "Internal Server Error", ["111111111111"], some "m1"⟩]
      = [] := rfl

/-- C3 amended: a non-OK response during the provisioned-accounts fetch
is logged and turned into the empty page with no continuation marker, so
when the first page fails the accessor returns the empty list; the
accessor never raises on a non-OK response. -/
theorem provisioned_accounts_nonok_returns_empty (r : ProvResp)
    (rest : List ProvResp) (h : r.ok = false) :
    provisionedAccountIds (r :: rest) = [] := by
  simp [provisionedAccountIds, list_provisioned_accounts_pagination, h, markerTruthy]

/-- Witness for C3 amended at a concrete non-OK response. -/
theorem provisioned_accounts_nonok_returns_empty_witness :
    provisionedAccountIds
      [⟨false, "boom", [], none⟩, ⟨true, "", ["222222222222"], none⟩] = [] :=
  provisioned_accounts_nonok_returns_empty _ _ rfl

/-- C4: Sso.sso_directory_id on a non-OK GetUserPoolInfo response does
not log and return None as claimed: line 144 of awsssolib.py reads the
undefined name responce, so the accessor raises NameError (for this and
every other response). -/
theorem sso_directory_id_raises_nameerror :
    sso_directory_id ⟨false, "Internal Server Error", none⟩
      = Except.error (PyErr.nameError "responce") := rfl

/-- C9 counterexample: when the GetApplicationInstanceForAWSAccount
response carries a JSON-null instanceId, the extracted value is Python
None; storing it leaves the memo sentinel unset, so the second access to
instance_id on the same Account issues a second network call (each pair
below is calls issued and outcome of one access, and the claim requires
the second access to issue zero calls). -/
theorem instance_id_null_refetches :
    (instanceIdAccesses
      [("applicationInstance", JVal.obj [("instanceId", JVal.pynone)])]
      2 JVal.pynone).1
      = [(1, Except.ok JVal.pynone), (1, Except.ok JVal.pynone)] := rfl

/-- Helper: an access on a non-None memo issues no call and returns the
memo unchanged. -/
theorem instanceIdAccesses_memoized (resp : List (String × JVal)) (v : JVal)
    (hv : v ≠ JVal.pynone) (n : Nat) :
    instanceIdAccesses resp n v = (List.replicate n (0, Except.ok v), v) := by
  induction n with
  | zero => rfl
  | succ n ih =>
    have hstep : instanceIdAccess resp v = (0, Except.ok v, v) := by
      cases v <;> simp_all [instanceIdAccess]
    simp [instanceIdAccesses, hstep, ih, List.replicate]

/-- C9 amended: provided the extraction of the instance id succeeds with
a value other than Python None (which holds whenever the field is a
string or absent, since the .get default is the empty string), the first
access issues exactly one GetApplicationInstanceForAWSAccount call and
stores the value, and each of the n subsequent accesses issues no call
and returns the same value; when the extracted value is None the memo
sentinel stays unset and every access re-issues the call. -/
theorem instance_id_memoized_when_not_none (resp : List (String × JVal))
    (v : JVal) (n : Nat)
    (h : extractInstanceId resp = Except.ok v) (hv : v ≠ JVal.pynone) :
    instanceIdAccesses resp (n + 1) JVal.pynone
      = ((1, Except.ok v) :: List.replicate n (0, Except.ok v), v) := by
  have hstep : instanceIdAccess resp JVal.pynone = (1, Except.ok v, v) := by
    simp [instanceIdAccess, h]
  simp [instanceIdAccesses, hstep, instanceIdAccesses_memoized resp v hv n]

/-- Witness for C9 amended at a response whose instanceId is a string. -/
theorem instance_id_memoized_when_not_none_witness :
    instanceIdAccesses
      [("applicationInstance", JVal.obj [("instanceId", JVal.str "ins-123")])]
      3 JVal.pynone
      = ((1, Except.ok (JVal.str "ins-123"))
          :: List.replicate 2 (0, Except.ok (JVal.str "ins-123")),
         JVal.str "ins-123") :=
  instance_id_memoized_when_not_none _ _ 2 rfl (fun h => JVal.noConfusion h)

/-- C6: on a scripted backend where every lookup would succeed and the
final AssociateProfile response is non-OK, associate_group_to_account
issues zero POSTs and raises NameError for the unbound name copy: the
very first step, get_group_by_name, pulls the groups generator, whose
payload construction (awsssolib.py line 524) calls the broken
Sso.get_api_payload (line 118, copy.deepcopy with copy unimported).  No
falsy result is returned, the provisioning POST is never issued, and
the AssociateProfile POST is never reached, against the claim. -/
theorem associate_group_nonok_trace :
    associate_group_to_account
      ⟨[[("GroupName", JVal.str "devs"), ("GroupId", JVal.str "g-1")]],
       [[("Name", JVal.str "prod"), ("Id", JVal.str "111111111111")]],
       [[("Name", JVal.str "admin"), ("Id", JVal.str "ps-1")]],
       [("applicationInstance", JVal.obj [("instanceId", JVal.str "ins-1")])],
       [("applicationProfile", JVal.obj [("profileId", JVal.str "pr-1")])],
       ⟨true, "", some "d-1"⟩, false⟩
      "devs" "prod" "admin"
      = ([], Except.error (PyErr.nameError "copy")) := rfl

/-- C8 counterexample: not every by-name helper returns the absence
sentinel on a miss: get_group_by_name on a scripted group page that does
not contain the queried name raises NameError instead of returning None,
because the groups generator builds its payload with the broken staged
Sso.get_api_payload before any scan. -/
theorem get_group_by_name_raises_counterexample :
    get_group_by_name [[("GroupName", JVal.str "devs")]] "absent"
      = Except.error (PyErr.nameError "copy") := rfl

/-- C8 amended: get_account_by_name and get_account_by_id, whose
pagination builds its payload inline and avoids the broken builder,
return the absence sentinel None after exhausting all pages whenever no
account matches, and never raise; but the group, user and permission-set
by-name helpers never return the sentinel on the staged source: their
collection properties call the broken Sso.get_api_payload and raise
NameError for the unbound name copy before any POST or scan. -/
theorem get_account_by_name_miss_returns_none (ps : List AccountsPage)
    (n i : String)
    (gs us pss : List (List (String × JVal))) (gn un pn : String)
    (hn : ∀ d ∈ accountsCollect ps, jvalEqStr (Account.name d) n = false)
    (hi : ∀ d ∈ accountsCollect ps, jvalEqStr (Account.id d) i = false) :
    get_account_by_name ps n = none ∧ get_account_by_id ps i = none ∧
    get_group_by_name gs gn = Except.error (PyErr.nameError "copy") ∧
    get_user_by_name us un = Except.error (PyErr.nameError "copy") ∧
    get_permission_set_by_name pss pn = Except.error (PyErr.nameError "copy") := by
  refine ⟨?_, ?_, rfl, rfl, rfl⟩
  · exact List.find?_eq_none.mpr fun d hd => by simp [hn d hd]
  · exact List.find?_eq_none.mpr fun d hd => by simp [hi d hd]

/-- Witness for C8 amended on a concrete two-page script with a miss. -/
theorem get_account_by_name_miss_returns_none_witness :
    get_account_by_name
      [⟨[[("Name", JVal.str "a"), ("Id", JVal.str "1")]], "tok"⟩,
       ⟨[[("Name", JVal.str "b"), ("Id", JVal.str "2")]], ""⟩] "zz" = none ∧
    get_account_by_id
      [⟨[[("Name", JVal.str "a"), ("Id", JVal.str "1")]], "tok"⟩,
       ⟨[[("Name", JVal.str "b"), ("Id", JVal.str "2")]], ""⟩] "99" = none ∧
    get_group_by_name [[("GroupName", JVal.str "devs")]] "zz"
      = Except.error (PyErr.nameError "copy") ∧
    get_user_by_name [[("UserName", JVal.str "alice")]] "zz"
      = Except.error (PyErr.nameError "copy") ∧
    get_permission_set_by_name [[("Name", JVal.str "admin")]] "zz"
      = Except.error (PyErr.nameError "copy") :=
  get_account_by_name_miss_returns_none _ "zz" "99"
    [[("GroupName", JVal.str "devs")]] [[("UserName", JVal.str "alice")]]
    [[("Name", JVal.str "admin")]] "zz" "zz" "zz" (by decide) (by decide)

/-! ## Pagination trace lemmas for the fetcher loop -/

/-- Yields of a trace starting with a request. -/
theorem yieldedOf_cons_request (i : Nat) (l : List Event) :
    yieldedOf (Event.request i :: l) = yieldedOf l := rfl

/-- Yields distribute over trace concatenation. -/
theorem yieldedOf_append (l1 l2 : List Event) :
    yieldedOf (l1 ++ l2) = yieldedOf l1 ++ yieldedOf l2 := by
  simp [yieldedOf]

/-- Yield events of a page are exactly its items. -/
theorem yieldedOf_map_yielded (xs : List JVal) :
    yieldedOf (xs.map Event.yielded) = xs := by
  induction xs with
  | nil => rfl
  | cons x xs ih => simpa [yieldedOf] using ih

/-- Requests of a trace starting with a request. -/
theorem requestsOf_cons_request (i : Nat) (l : List Event) :
    requestsOf (Event.request i :: l) = i :: requestsOf l := rfl

/-- Requests distribute over trace concatenation. -/
theorem requestsOf_append (l1 l2 : List Event) :
    requestsOf (l1 ++ l2) = requestsOf l1 ++ requestsOf l2 := by
  simp [requestsOf]

/-- Yield events contain no request. -/
theorem requestsOf_map_yielded (xs : List JVal) :
    requestsOf (xs.map Event.yielded) = [] := by
  induction xs with
  | nil => rfl
  | cons x xs _ => simp [requestsOf]

/-- takeWhile passes over a prefix every element of which satisfies the
predicate. -/
theorem takeWhile_append_all {α : Type} (p : α → Bool) (l1 l2 : List α)
    (h : ∀ x ∈ l1, p x = true) :
    (l1 ++ l2).takeWhile p = l1 ++ l2.takeWhile p := by
  induction l1 with
  | nil => simp
  | cons a l ih =>
    have ha : p a = true := h a (by simp)
    simp only [List.cons_append, List.takeWhile_cons, ha, if_true]
    rw [ih fun x hx => h x (by simp [hx])]

/-- A run over a non-empty script always starts by requesting the first
page. -/
theorem pagesLoop_head (p : SsoPage) (rest : List SsoPage) (b : Nat) :
    ∃ t, (pagesLoop (p :: rest) b).1 = Event.request b :: t := by
  unfold pagesLoop
  by_cases h : p.ok = false
  · exact ⟨[], by simp [h]⟩
  · cases hn : p.nextToken <;> simp [h, hn]

/-- Outcome, yields and requests of a run over a well-formed all-OK
script, for an arbitrary starting page index. -/
theorem pagesLoop_spec (ps : List SsoPage) (b : Nat)
    (hok : ∀ p ∈ ps, p.ok = true) (hc : cursorChain ps) :
    (pagesLoop ps b).2 = Except.ok () ∧
    yieldedOf (pagesLoop ps b).1 = (ps.map SsoPage.items).flatten ∧
    requestsOf (pagesLoop ps b).1 = List.range' b ps.length := by
  induction ps generalizing b with
  | nil => simp [pagesLoop, yieldedOf, requestsOf]
  | cons p rest ih =>
    have hp : p.ok = true := hok p (by simp)
    cases rest with
    | nil =>
      have hn : p.nextToken = none := hc
      simp [pagesLoop, hp, hn, yieldedOf_cons_request,
        yieldedOf_map_yielded, requestsOf_cons_request, requestsOf_map_yielded,
        List.range']
    | cons q rest2 =>
      obtain ⟨⟨s, hs⟩, hc2⟩ := hc
      obtain ⟨h1, h2, h3⟩ := ih (fun x hx => hok x (by simp [hx])) hc2 (b := b + 1)
      have hrun : pagesLoop (p :: q :: rest2) b
          = (Event.request b :: p.items.map Event.yielded
              ++ (pagesLoop (q :: rest2) (b + 1)).1,
             (pagesLoop (q :: rest2) (b + 1)).2) := by
        simp [pagesLoop, hp, hs]
      rw [hrun]
      refine ⟨h1, ?_, ?_⟩
      · simp [yieldedOf_cons_request, yieldedOf_append, yieldedOf_map_yielded, h2]
      · simp [requestsOf_cons_request, requestsOf_append, requestsOf_map_yielded,
          h3, List.range']

/-- Before page i+1 is requested, exactly the items of pages 0..i have
been yielded, for an arbitrary starting page index. -/
theorem pagesLoop_ordering (ps : List SsoPage) (b k : Nat)
    (hok : ∀ p ∈ ps, p.ok = true) (hc : cursorChain ps)
    (hk : k + 1 < ps.length) :
    yieldedOf ((pagesLoop ps b).1.takeWhile
        (fun e => !e.isRequest (b + k + 1)))
      = ((ps.take (k + 1)).map SsoPage.items).flatten := by
  induction ps generalizing b k with
  | nil => simp at hk
  | cons p rest ih =>
    have hp : p.ok = true := hok p (by simp)
    cases rest with
    | nil => simp at hk
    | cons q rest2 =>
      obtain ⟨⟨s, hs⟩, hc2⟩ := hc
      have hrun : (pagesLoop (p :: q :: rest2) b).1
          = Event.request b :: p.items.map Event.yielded
              ++ (pagesLoop (q :: rest2) (b + 1)).1 := by
        simp [pagesLoop, hp, hs]
      have hreqb : (!Event.isRequest (b + k + 1) (Event.request b)) = true := by
        simp [Event.isRequest]; omega
      have hall : ∀ x ∈ p.items.map Event.yielded,
          (!Event.isRequest (b + k + 1) x) = true := by
        intro x hx
        obtain ⟨d, _, rfl⟩ := List.mem_map.mp hx
        simp [Event.isRequest]
      rw [hrun, List.cons_append, List.takeWhile_cons, if_pos hreqb,
        takeWhile_append_all _ _ _ hall]
      cases k with
      | zero =>
        obtain ⟨t, ht⟩ := pagesLoop_head q rest2 (b + 1)
        have hstop : ¬((!Event.isRequest (b + 0 + 1) (Event.request (b + 1))) = true) := by
          simp [Event.isRequest]
        rw [ht, List.takeWhile_cons, if_neg hstop, List.append_nil,
          yieldedOf_cons_request, yieldedOf_map_yielded]
        simp
      | succ k =>
        have harith : b + (k + 1) + 1 = (b + 1) + k + 1 := by omega
        have hk2 : k + 1 < (q :: rest2).length := by
          simpa using Nat.lt_of_succ_lt_succ hk
        have := ih (fun x hx => hok x (by simp [hx])) hc2 (b := b + 1) (k := k) hk2
        simp only [harith]
        rw [yieldedOf_cons_request, yieldedOf_append, yieldedOf_map_yielded, this]
        simp

/-- The request-and-yield loop of the fetcher, taken on its own, does
implement the claimed pagination contract: over every finite scripted
page sequence in which every page is OK, every page except the last
carries a NextToken and the last carries none, it raises nothing, yields
exactly the items of all pages in page order (each exactly once),
requests each page exactly once (pages 0 .. n-1 in order, terminating
after the cursor-less page), and all items of pages up to i are yielded
before page i+1 is requested. -/
theorem pagesLoop_yields_pages_in_order (ps : List SsoPage)
    (hok : ∀ p ∈ ps, p.ok = true) (hc : cursorChain ps) :
    (pagesLoop ps 0).2 = Except.ok () ∧
    yieldedOf (pagesLoop ps 0).1 = (ps.map SsoPage.items).flatten ∧
    requestsOf (pagesLoop ps 0).1 = List.range ps.length ∧
    ∀ i, i + 1 < ps.length →
      yieldedOf ((pagesLoop ps 0).1.takeWhile
          (fun e => !e.isRequest (i + 1)))
        = ((ps.take (i + 1)).map SsoPage.items).flatten := by
  obtain ⟨h1, h2, h3⟩ := pagesLoop_spec ps 0 hok hc
  refine ⟨h1, h2, ?_, ?_⟩
  · rw [h3, List.range_eq_range']
  · intro i hi
    have h := pagesLoop_ordering ps 0 i hok hc hi
    simpa using h

/-- The loop contract instantiated on a concrete two-page script. -/
theorem pagesLoop_yields_pages_in_order_witness :
    (pagesLoop pagScript 0).2 = Except.ok () ∧
    yieldedOf (pagesLoop pagScript 0).1
      = [JVal.str "x", JVal.str "y", JVal.str "z"] := by
  have h := pagesLoop_yields_pages_in_order pagScript
    (by intro p hp; fin_cases hp <;> rfl) ⟨⟨"tok", rfl⟩, rfl⟩
  exact ⟨h.1, by simpa [pagScript] using h.2.1⟩

/-- C1: the staged Sso._get_paginated_results cannot yield at all: its
first statement (awsssolib.py line 524) builds the payload with the
broken Sso.get_api_payload, which raises NameError for the unbound name
copy (line 118, copy.deepcopy with copy unimported), so on the claimed
well-formed two-page script the run issues no request and yields no
item, against the claim that every item of every page is yielded.  The
loop itself satisfies the claimed contract (pagesLoop_yields_pages_in_order),
so the claim describes the evident intent that the builder slip
defeats. -/
theorem paginated_fetch_raises_nameerror :
    getPaginatedResults pagScript
      = ([], Except.error (PyErr.nameError "copy")) := rfl

/-! ## Store lemmas for the payload-builder theorems -/

/-- deepRead leaves primitives unchanged at every fuel. -/
theorem deepRead_prim (st : Store) (fuel : Nat) (s : String) :
    deepRead st fuel (.prim s) = .prim s := by
  cases fuel <;> rfl

/-- Association-list lookup at the head key. -/
theorem lookup_cons_self {β : Type} (a : Addr) (o : β) (rest : List (Addr × β)) :
    ((a, o) :: rest).lookup a = some o := by
  simp [List.lookup]

/-- Association-list lookup past a different head key. -/
theorem lookup_cons_ne {β : Type} (a c : Addr) (o : β) (rest : List (Addr × β))
    (h : a ≠ c) : ((c, o) :: rest).lookup a = rest.lookup a := by
  have hbc : (a == c) = false := beq_eq_false_iff_ne.mpr h
  simp [List.lookup, hbc]

/-- A successful association-list lookup exhibits a member. -/
theorem mem_of_lookup_eq_some {β : Type} {l : List (Addr × β)} {a : Addr} {o : β}
    (h : l.lookup a = some o) : (a, o) ∈ l := by
  induction l with
  | nil => simp [List.lookup] at h
  | cons e rest ih =>
    obtain ⟨c, b⟩ := e
    by_cases hac : a = c
    · subst hac
      rw [lookup_cons_self] at h
      cases h
      exact List.mem_cons_self _ _
    · rw [lookup_cons_ne _ _ _ _ hac] at h
      exact List.mem_cons_of_mem _ (ih h)

/-- In a bounded store every dereferencable address is below the bump
pointer. -/
theorem find_lt_of_bounded (st : Store) (hb : StoreBounded st) (a : Addr)
    (o : Obj) (h : st.find a = some o) : a < st.next :=
  hb (a, o) (mem_of_lookup_eq_some h)

/-- A bounded store has no object at or above its bump pointer, so it is
vacuously fresh from there. -/
theorem storeFreshFrom_next_of_bounded (st : Store) (hb : StoreBounded st) :
    StoreFreshFrom st.next st := by
  intro a o h hN
  exact absurd (find_lt_of_bounded st hb a o h) (Nat.not_lt.mpr hN)

/-- Freshness of a value is downward monotone in the bound. -/
theorem valFresh_mono {N M : Nat} {v : PVal} (h : N ≤ M) (hv : ValFresh M v) :
    ValFresh N v := by
  cases v with
  | prim s => trivial
  | ref a => exact Nat.le_trans h hv

/-- Freshness of a field list is downward monotone in the bound. -/
theorem fieldsFresh_mono {N M : Nat} {l : List (String × PVal)} (h : N ≤ M)
    (hl : FieldsFresh M l) : FieldsFresh N l :=
  fun kv hkv => valFresh_mono h (hl kv hkv)

/-- Allocation bumps the pointer by one. -/
theorem allocObj_next (st : Store) (o : Obj) :
    (allocObj st o).1.next = st.next + 1 := rfl

/-- Allocation does not change any address below the old bump pointer. -/
theorem allocObj_find_lt (st : Store) (o : Obj) (a : Addr) (h : a < st.next) :
    (allocObj st o).1.find a = st.find a :=
  lookup_cons_ne _ _ _ _ (Nat.ne_of_lt h)

/-- Allocation preserves boundedness. -/
theorem allocObj_bounded (st : Store) (o : Obj) (hb : StoreBounded st) :
    StoreBounded (allocObj st o).1 := by
  intro e he
  simp only [allocObj, List.mem_cons] at he
  rcases he with he | he
  · subst he
    exact Nat.lt_succ_self _
  · exact Nat.lt_trans (hb e he) (Nat.lt_succ_self _)

/-- Mutating one field of one object leaves every other address intact. -/
theorem setField_find_ne (st : Store) (a b : Addr) (k : String) (v : PVal)
    (h : b ≠ a) : (setField st a k v).find b = st.find b := by
  show (st.mem.map fun e =>
      if e.1 = a then (e.1, Obj.mk ((k, v) :: e.2.fields)) else e).lookup b
    = st.mem.lookup b
  induction st.mem with
  | nil => rfl
  | cons e rest ih =>
    obtain ⟨c, o⟩ := e
    by_cases hca : c = a
    · subst hca
      simp only [List.map_cons, eq_self_iff_true, if_true]
      rw [lookup_cons_ne _ _ _ _ h, lookup_cons_ne _ _ _ _ h, ih]
    · simp only [List.map_cons, if_neg hca]
      by_cases hbc : b = c
      · subst hbc
        rw [lookup_cons_self, lookup_cons_self]
      · rw [lookup_cons_ne _ _ _ _ hbc, lookup_cons_ne _ _ _ _ hbc, ih]

/-- Framing lemma: reading a value whose references stay at or above N
is insensitive to differences below N, for any fuel. -/
theorem deepRead_agree (N : Nat) (st st' : Store)
    (hsf : StoreFreshFrom N st) (hag : AgreeFrom N st st') :
    ∀ fuel v, ValFresh N v → deepRead st fuel v = deepRead st' fuel v := by
  intro fuel
  induction fuel with
  | zero =>
    intro v _
    cases v <;> rfl
  | succ fuel ih =>
    intro v hv
    cases v with
    | prim s => rfl
    | ref a =>
      have ha : N ≤ a := hv
      have hfind : st.find a = st'.find a := hag a ha
      show (match st.find a with
            | none => PureVal.prim ""
            | some o => .dict (o.fields.map fun kv : String × PVal =>
                (kv.1, deepRead st fuel kv.2)))
        = (match st'.find a with
            | none => PureVal.prim ""
            | some o => .dict (o.fields.map fun kv : String × PVal =>
                (kv.1, deepRead st' fuel kv.2)))
      rw [hfind]
      cases h : st'.find a with
      | none => rfl
      | some o =>
        have hff : FieldsFresh N o.fields := hsf a o (by rw [hfind, h]) ha
        simp only []
        congr 1
        apply List.map_congr_left
        intro kv hkv
        rw [ih kv.2 (hff kv hkv)]

mutual

/-- Allocating a pure tree only grows the store: the bump pointer does
not decrease, old addresses keep their objects, the returned value is
fresh, and freshness of the store is preserved. -/
theorem allocPure_spec (p : PureVal) (st : Store) :
    st.next ≤ (allocPure st p).1.next ∧
    (∀ a, a < st.next → (allocPure st p).1.find a = st.find a) ∧
    ValFresh st.next (allocPure st p).2 ∧
    (∀ N, N ≤ st.next → StoreFreshFrom N st → StoreFreshFrom N (allocPure st p).1) := by
  cases p with
  | prim s => exact ⟨Nat.le_refl _, fun a _ => rfl, trivial, fun N _ hs => hs⟩
  | dict fs =>
    obtain ⟨hn, hpres, hff, hpr⟩ := allocPureFields_spec fs st
    refine ⟨?_, ?_, ?_, ?_⟩
    · show st.next ≤ (allocPureFields st fs).1.next + 1
      exact Nat.le_succ_of_le hn
    · intro a ha
      show (((allocPureFields st fs).1.next, Obj.mk (allocPureFields st fs).2)
          :: (allocPureFields st fs).1.mem).lookup a = st.find a
      rw [lookup_cons_ne a (allocPureFields st fs).1.next
        (Obj.mk (allocPureFields st fs).2) (allocPureFields st fs).1.mem
        (Nat.ne_of_lt (Nat.lt_of_lt_of_le ha hn))]
      exact hpres a ha
    · show st.next ≤ (allocPureFields st fs).1.next
      exact hn
    · intro N hNle hsf a o hfind hNa
      have hfind' : (((allocPureFields st fs).1.next, Obj.mk (allocPureFields st fs).2)
          :: (allocPureFields st fs).1.mem).lookup a = some o := hfind
      by_cases ha : a = (allocPureFields st fs).1.next
      · subst ha
        rw [lookup_cons_self] at hfind'
        cases hfind'
        exact fieldsFresh_mono hNle hff
      · rw [lookup_cons_ne _ _ _ _ ha] at hfind'
        exact hpr N hNle hsf a o hfind' hNa

/-- Field-list version of allocPure_spec. -/
theorem allocPureFields_spec (l : List (String × PureVal)) (st : Store) :
    st.next ≤ (allocPureFields st l).1.next ∧
    (∀ a, a < st.next → (allocPureFields st l).1.find a = st.find a) ∧
    FieldsFresh st.next (allocPureFields st l).2 ∧
    (∀ N, N ≤ st.next → StoreFreshFrom N st → StoreFreshFrom N (allocPureFields st l).1) := by
  cases l with
  | nil =>
    exact ⟨Nat.le_refl _, fun a _ => rfl, fun kv hkv => absurd hkv (List.not_mem_nil kv),
      fun N _ hs => hs⟩
  | cons kv rest =>
    obtain ⟨k, v⟩ := kv
    obtain ⟨hn1, hpres1, hvf1, hpr1⟩ := allocPure_spec v st
    obtain ⟨hn2, hpres2, hff2, hpr2⟩ := allocPureFields_spec rest (allocPure st v).1
    refine ⟨Nat.le_trans hn1 hn2, ?_, ?_, ?_⟩
    · intro a ha
      show (allocPureFields (allocPure st v).1 rest).1.find a = st.find a
      rw [hpres2 a (Nat.lt_of_lt_of_le ha hn1)]
      exact hpres1 a ha
    · intro kv2 hkv2
      rcases List.mem_cons.mp hkv2 with h | h
      · subst h
        exact hvf1
      · exact valFresh_mono hn1 (hff2 kv2 h)
    · intro N hNle hsf
      exact hpr2 N (Nat.le_trans hNle hn1) (hpr1 N hNle hsf)

end

/-- The payload stage strictly grows the bump pointer. -/
theorem payloadStage_next_le (st : Store) (ca : Addr) (target method : String)
    (params : Option Addr) (path ct ce xa region : String) :
    st.next ≤ (payloadStage st ca target method params path ct ce xa region).1.next := by
  cases params with
  | none =>
    show st.next ≤ st.next + 1 + 1 + 1
    exact Nat.le_succ_of_le (Nat.le_succ_of_le (Nat.le_succ st.next))
  | some a =>
    show st.next ≤ st.next + 1 + 1
    exact Nat.le_succ_of_le (Nat.le_succ st.next)

/-- The payload stage preserves boundedness of the store. -/
theorem payloadStage_bounded (st : Store) (ca : Addr) (target method : String)
    (params : Option Addr) (path ct ce xa region : String)
    (hb : StoreBounded st) :
    StoreBounded (payloadStage st ca target method params path ct ce xa region).1 := by
  cases params with
  | none =>
    exact allocObj_bounded _ _ (allocObj_bounded _ _ (allocObj_bounded _ _ hb))
  | some a =>
    exact allocObj_bounded _ _ (allocObj_bounded _ _ hb)

/-- Deep-copying any pure tree out of a bounded store produces a value
living entirely at or above the old bump pointer. -/
theorem allocPure_fresh_of_bounded (stX : Store) (tree : PureVal)
    (hb : StoreBounded stX) :
    ValFresh stX.next (allocPure stX tree).2 ∧
    StoreFreshFrom stX.next (allocPure stX tree).1 := by
  obtain ⟨_, _, hvf, hpr⟩ := allocPure_spec tree stX
  exact ⟨hvf, hpr stX.next (Nat.le_refl _) (storeFreshFrom_next_of_bounded stX hb)⟩

/-- The envelope returned by buildAndDeepcopy is fresh: there is a bound
N at or above the caller bump pointer such that the envelope value
references only addresses at or above N and no object from N on refers
below N. -/
theorem buildAndDeepcopy_fresh (st : Store) (ca : Addr) (target method : String)
    (params : Option Addr) (path ct ce xa region : String)
    (hb : StoreBounded st) :
    ∃ N, st.next ≤ N ∧
      ValFresh N (buildAndDeepcopy st ca target method params path ct ce xa region).2 ∧
      StoreFreshFrom N (buildAndDeepcopy st ca target method params path ct ce xa region).1 := by
  refine ⟨(payloadStage st ca target method params path ct ce xa region).1.next,
    payloadStage_next_le st ca target method params path ct ce xa region, ?_, ?_⟩
  · exact (allocPure_fresh_of_bounded _ _
      (payloadStage_bounded st ca target method params path ct ce xa region hb)).1
  · exact (allocPure_fresh_of_bounded _ _
      (payloadStage_bounded st ca target method params path ct ce xa region hb)).2

/-- C7: for every call of get_api_payload with a supported target over a
bounded caller store, the returned envelope shares no mutable structure
with the caller: mutating any field of any object that existed before
the call (in particular the content_string and params dicts) leaves
every deep read of the envelope unchanged. -/
theorem get_api_payload_no_aliasing (st : Store) (ca : Addr)
    (target method path ct ce xa region : String) (params : Option Addr)
    (st4 : Store) (env : PVal)
    (hb : StoreBounded st)
    (hok : get_api_payload st ca target method params path ct ce xa region
            = Except.ok (st4, env))
    (a : Addr) (k : String) (v : PVal) (fuel : Nat) (ha : a < st.next) :
    deepRead (setField st4 a k v) fuel env = deepRead st4 fuel env := by
  unfold get_api_payload at hok
  cases hvt : validate_target target with
  | error e => rw [hvt] at hok; cases hok
  | ok t' =>
    rw [hvt] at hok
    have hpair : buildAndDeepcopy st ca t' method params path ct ce xa region
        = (st4, env) := Except.ok.inj hok
    obtain ⟨N, hN, hvf, hsf⟩ :=
      buildAndDeepcopy_fresh st ca t' method params path ct ce xa region hb
    rw [hpair] at hvf hsf
    have hag : AgreeFrom N st4 (setField st4 a k v) := by
      intro b hbN
      exact (setField_find_ne st4 a b k v
        (Nat.ne_of_gt (Nat.lt_of_lt_of_le (Nat.lt_of_lt_of_le ha hN) hbN))).symm
    exact (deepRead_agree N st4 (setField st4 a k v) hsf hag fuel env hvf).symm

/-- Witness for C7: over the concrete caller store wStore, mutating the
caller params dict (address 1) after the call leaves the deep read of
the returned envelope unchanged. -/
theorem get_api_payload_no_aliasing_witness :
    deepRead (setField wResult.1 1 "p" (PVal.prim "mutated")) 4 wResult.2
      = deepRead wResult.1 4 wResult.2 :=
  get_api_payload_no_aliasing wStore 0 "AssociateProfile" "POST" "/control/"
    "application/json; charset=UTF-8" "amz-1.0"
    "com.amazon.switchboard.service.SWBService.AssociateProfile" "eu-west-1"
    (some 1) wResult.1 wResult.2 (by unfold StoreBounded; decide) rfl 1 "p"
    (PVal.prim "mutated") 4 (by decide)

/-- A lookup hit is preserved by a map that keeps keys and transforms
values. -/
theorem lookup_map_snd (l : List (String × PVal)) (f : PVal → PureVal)
    (k : String) (v : PVal) :
    l.lookup k = some v →
    (l.map fun kv : String × PVal => (kv.1, f kv.2)).lookup k = some (f v) := by
  induction l with
  | nil => intro h; simp [List.lookup] at h
  | cons kv rest ih =>
    intro h
    obtain ⟨k', v'⟩ := kv
    by_cases hk : (k == k') = true
    · have hv : v' = v := by simpa [List.lookup, hk] using h
      subst hv
      simp [List.lookup, hk]
    · have h2 : rest.lookup k = some v := by simpa [List.lookup, hk] using h
      simpa [List.lookup, hk] using ih h2

/-- Freshly allocating a pure tree preserves a lookup hit on a primitive
field. -/
theorem allocPureFields_lookup_prim (l : List (String × PureVal)) (st : Store)
    (k s : String) :
    l.lookup k = some (.prim s) →
    (allocPureFields st l).2.lookup k = some (.prim s) := by
  induction l generalizing st with
  | nil => intro h; simp [List.lookup] at h
  | cons kv rest ih =>
    intro h
    obtain ⟨k', v'⟩ := kv
    show ((k', (allocPure st v').2)
        :: (allocPureFields (allocPure st v').1 rest).2).lookup k
      = some (PVal.prim s)
    by_cases hk : (k == k') = true
    · have hv : v' = PureVal.prim s := by simpa [List.lookup, hk] using h
      subst hv
      simp [List.lookup, hk, allocPure]
    · have h2 : rest.lookup k = some (PureVal.prim s) := by
        simpa [List.lookup, hk] using h
      simpa [List.lookup, hk] using ih (allocPure st v').1 h2

/-- Deep-copying a freshly allocated dict preserves every primitive
field observably: reading field k of the copy returns the same string. -/
theorem getField_deepcopy_prim (stX : Store) (o : Obj) (k s : String)
    (hlook : o.fields.lookup k = some (.prim s)) :
    getField
      (allocPure (allocObj stX o).1
        (deepRead (allocObj stX o).1 (allocObj stX o).1.next
          (.ref (allocObj stX o).2))).1
      (allocPure (allocObj stX o).1
        (deepRead (allocObj stX o).1 (allocObj stX o).1.next
          (.ref (allocObj stX o).2))).2
      k = some (.prim s) := by
  have hfind : (allocObj stX o).1.find stX.next = some o := lookup_cons_self _ _ _
  have htree : deepRead (allocObj stX o).1 (allocObj stX o).1.next
        (.ref (allocObj stX o).2)
      = .dict (o.fields.map fun kv : String × PVal =>
          (kv.1, deepRead (allocObj stX o).1 stX.next kv.2)) := by
    show (match (allocObj stX o).1.find stX.next with
          | none => PureVal.prim ""
          | some o2 => .dict (o2.fields.map fun kv : String × PVal =>
              (kv.1, deepRead (allocObj stX o).1 stX.next kv.2))) = _
    rw [hfind]
  rw [htree]
  have hM : (o.fields.map fun kv : String × PVal =>
        (kv.1, deepRead (allocObj stX o).1 stX.next kv.2)).lookup k
      = some (PureVal.prim s) := by
    have h := lookup_map_snd o.fields (deepRead (allocObj stX o).1 stX.next)
      k (.prim s) hlook
    rwa [deepRead_prim] at h
  set M := o.fields.map fun kv : String × PVal =>
    (kv.1, deepRead (allocObj stX o).1 stX.next kv.2) with hMdef
  have hfind2 : (allocPure (allocObj stX o).1 (.dict M)).1.find
        (allocPureFields (allocObj stX o).1 M).1.next
      = some (Obj.mk (allocPureFields (allocObj stX o).1 M).2) :=
    lookup_cons_self _ _ _
  show (match (allocPure (allocObj stX o).1 (.dict M)).1.find
          (allocPureFields (allocObj stX o).1 M).1.next with
        | some o2 => o2.fields.lookup k
        | none => none) = some (PVal.prim s)
  rw [hfind2]
  exact allocPureFields_lookup_prim M (allocObj stX o).1 k s hM

/-- The envelope returned by buildAndDeepcopy carries the validated
target unchanged in its operation field. -/
theorem buildAndDeepcopy_operation (st : Store) (ca : Addr)
    (target method : String) (params : Option Addr)
    (path ct ce xa region : String) :
    getField (buildAndDeepcopy st ca target method params path ct ce xa region).1
      (buildAndDeepcopy st ca target method params path ct ce xa region).2
      "operation" = some (.prim target) :=
  getField_deepcopy_prim
    (paramsAlloc (allocObj st (headersObj ct ce xa)).1 params).1
    (payloadObj (pureSerialize (deepRead st st.next (.ref ca)))
      (allocObj st (headersObj ct ce xa)).2 method target
      (paramsAlloc (allocObj st (headersObj ct ce xa)).1 params).2 path region)
    "operation" target rfl

/-- C2: for every operation name outside SUPPORTED_TARGETS, payload
construction fails with UnsupportedTarget (validation is the first step
of get_api_payload, so nothing else, in particular no request, happens);
for every name in the allow-list no such error is raised and the name
appears unchanged as the operation field of the returned envelope. -/
theorem get_api_payload_allowlist (st : Store) (ca : Addr)
    (target method path ct ce xa region : String) (params : Option Addr) :
    (target ∉ SUPPORTED_TARGETS →
      get_api_payload st ca target method params path ct ce xa region
        = Except.error ⟨target⟩) ∧
    (target ∈ SUPPORTED_TARGETS →
      ∃ st4 env,
        get_api_payload st ca target method params path ct ce xa region
          = Except.ok (st4, env) ∧
        getField st4 env "operation" = some (PVal.prim target)) := by
  constructor
  · intro h
    simp [get_api_payload, validate_target, h]
  · intro h
    refine ⟨(buildAndDeepcopy st ca target method params path ct ce xa region).1,
      (buildAndDeepcopy st ca target method params path ct ce xa region).2, ?_,
      buildAndDeepcopy_operation st ca target method params path ct ce xa region⟩
    simp [get_api_payload, validate_target, h]

/-- Witness for C2: a name outside the allow-list is rejected, a name
inside it is accepted and embedded as the operation field. -/
theorem get_api_payload_allowlist_witness :
    get_api_payload wStore 0 "BogusTarget" "POST" none "/" "ct" "ce" "xa"
      "eu-west-1" = Except.error ⟨"BogusTarget"⟩ ∧
    ∃ st4 env,
      get_api_payload wStore 0 "AssociateProfile" "POST" (some 1) "/control/"
        "application/json; charset=UTF-8" "amz-1.0"
        "com.amazon.switchboard.service.SWBService.AssociateProfile" "eu-west-1"
        = Except.ok (st4, env) ∧
      getField st4 env "operation" = some (PVal.prim "AssociateProfile") :=
  ⟨(get_api_payload_allowlist wStore 0 "BogusTarget" "POST" "/" "ct" "ce" "xa"
      "eu-west-1" none).1 (by decide),
   (get_api_payload_allowlist wStore 0 "AssociateProfile" "POST" "/control/"
      "application/json; charset=UTF-8" "amz-1.0"
      "com.amazon.switchboard.service.SWBService.AssociateProfile" "eu-west-1"
      (some 1)).2 (by decide)⟩

end AwsSso
